import Mathlib

/-!
Verification of the schema-validator core of a small LSP server for a custom
YAML-based configuration format (`.myconfig`).  The embedding below mirrors
`validator.ts`: `findLineForKey`, `createDiagnostic`, `validateConfig` and
`validateText`.  The external YAML library (`parseYaml`) is modelled as a
parameter `parse : String → Except YAMLParseError YamlValue`.
-/

namespace MyConfig

/-- A parsed YAML value as seen by the JavaScript validator.  Numbers are
modelled as integers; the validator only ever tests `typeof` and compares
with zero, so the numeric subtype is irrelevant. -/
inductive YamlValue where
  | str (s : String)
  | num (n : Int)
  | bool (b : Bool)
  | null
  | seq (xs : List YamlValue)
  | map (entries : List (String × YamlValue))

/-- `typeof v === 'string'` in JavaScript. -/
def YamlValue.isString : YamlValue → Bool
  | .str _ => true
  | _ => false

/-- `typeof v === 'number'` in JavaScript. -/
def YamlValue.isNum : YamlValue → Bool
  | .num _ => true
  | _ => false

/-- `typeof v === 'boolean'` in JavaScript. -/
def YamlValue.isBool : YamlValue → Bool
  | .bool _ => true
  | _ => false

/-- `typeof v === 'object' && v !== null` in JavaScript: YAML mappings and
sequences are both objects; `null` is excluded by the explicit null check in
the source. -/
def YamlValue.isObjectNonNull : YamlValue → Bool
  | .map _ => true
  | .seq _ => true
  | _ => false

/-- Is the value a mapping (a plain JavaScript object, not an array)?  This is
the root test of `validateText`: `typeof parsed === 'object' && parsed !== null
&& !Array.isArray(parsed)`. -/
def YamlValue.isMap : YamlValue → Bool
  | .map _ => true
  | _ => false

/-- Viewing a value as a `Record<string, unknown>` after the cast
`settings as Record<string, unknown>`: string-keyed membership on a JavaScript
array is always empty, so only a mapping contributes keys. -/
def YamlValue.asRecord : YamlValue → List (String × YamlValue)
  | .map entries => entries
  | _ => []

/-- A `Record<string, unknown>`: an association list of fields. -/
abbrev Config := List (String × YamlValue)

/-- Property access `config[k]`: the first binding of `k`, if any. -/
def getKey (config : Config) (k : String) : Option YamlValue :=
  (config.find? (fun p => p.1 == k)).map Prod.snd

/-- The JavaScript `k in config` test. -/
def hasKey (config : Config) (k : String) : Bool :=
  (getKey config k).isSome

/-- Diagnostic severity (LSP `DiagnosticSeverity.Error` / `Warning`). -/
inductive Severity where
  | error
  | warning
deriving DecidableEq, Repr

/-- An LSP position.  Lines are integers because the syntax-error branch of
`validateText` computes `(pos?.line ?? 1) - 1`, which JavaScript evaluates in
arbitrary-precision-free number arithmetic and never clamps at zero. -/
structure Position where
  line : Int
  character : Nat
deriving DecidableEq, Repr

/-- An LSP range. -/
structure Range where
  start : Position
  «end» : Position
deriving DecidableEq, Repr

/-- An LSP diagnostic, as assembled by `createDiagnostic`. -/
structure Diagnostic where
  severity : Severity
  range : Range
  message : String
  source : String
deriving DecidableEq, Repr

/-- `createDiagnostic` from the source: a single-line range from character 0
to character 1000, tagged with the fixed source string. -/
def createDiagnostic (severity : Severity) (line : Int) (message : String) :
    Diagnostic :=
  { severity := severity
    range := { start := { line := line, character := 0 }
               «end» := { line := line, character := 1000 } }
    message := message
    source := "myconfig-lsp" }

/-- The whitespace class of the regular-expression `\s` escape, restricted to
the characters that can occur inside one line of the split text. -/
def isWsChar (c : Char) : Bool :=
  c = ' ' || c = '\t' || c = '\r' || c = '\n' || c = '\x0b' || c = '\x0c'

/-- Does one line match the regular expression `^\s*KEY\s*:` for a bare-word
key (no escaping support, exactly as the source interpolates the key)? -/
def lineMatchesKey (line : String) (key : String) : Bool :=
  let rest := line.data.dropWhile isWsChar
  rest.take key.data.length == key.data &&
    match (rest.drop key.data.length).dropWhile isWsChar with
    | ':' :: _ => true
    | _ => false

/-- Helper of `splitLines`: the characters of the current line are accumulated
in reverse in `acc`. -/
def splitLinesAux : List Char → List Char → List String
  | [], acc => [String.mk acc.reverse]
  | c :: cs, acc =>
      if c = '\n' then String.mk acc.reverse :: splitLinesAux cs []
      else splitLinesAux cs (c :: acc)

/-- JavaScript `text.split('\n')`: the list of lines of the text, one more
line than there are newline characters (so `""` gives `[""]` and a trailing
newline yields a final empty line). -/
def splitLines (text : String) : List String :=
  splitLinesAux text.data []

/-- The scan of `findLineForKey`: first index (counting from `i`) of a line
matching the key pattern. -/
def findLineAux (key : String) : List String → Nat → Option Nat
  | [], _ => none
  | l :: ls, i => if lineMatchesKey l key then some i else findLineAux key ls (i + 1)

/-- `findLineForKey` from the source: 0-based index of the first line matching
`^\s*key\s*:`, and 0 when no line matches. -/
def findLineForKey (text : String) (key : String) : Nat :=
  (findLineAux key (splitLines text) 0).getD 0

/-- `REQUIRED_FIELDS` from the source. -/
def REQUIRED_FIELDS : List String := ["name", "version"]

/-- Message of a missing-required-field diagnostic. -/
def missingMsg (field : String) : String :=
  "必須フィールド \"" ++ field ++ "\" がありません"

/-- The missing-required-field diagnostic itself. -/
def missingDiag (field : String) : Diagnostic :=
  createDiagnostic .error 0 (missingMsg field)

/-- Message of the `name` type check. -/
def nameTypeMsg : String := "\"name\" は文字列である必要があります"

/-- Message of the `version` type check. -/
def versionTypeMsg : String := "\"version\" は文字列である必要があります"

/-- Message of the `enabled` type check. -/
def enabledTypeMsg : String := "\"enabled\" は真偽値である必要があります（true または false）"

/-- Message of the `settings` shape check. -/
def settingsObjMsg : String := "\"settings\" はオブジェクトである必要があります"

/-- Message of the `settings.timeout` type check. -/
def timeoutTypeMsg : String := "\"settings.timeout\" は数値である必要があります"

/-- Message of the `settings.retries` type check. -/
def retriesTypeMsg : String := "\"settings.retries\" は数値である必要があります"

/-- Message of the `settings.retries` non-negativity check. -/
def retriesNonNegMsg : String := "\"settings.retries\" は0以上である必要があります"

/-- The required-field loop of `validateConfig`: one error diagnostic at line 0
per required field absent from the config, in declaration order. -/
def requiredFindings (config : Config) : List Diagnostic :=
  REQUIRED_FIELDS.filterMap fun field =>
    if hasKey config field then none else some (missingDiag field)

/-- The `name` type check of `validateConfig`. -/
def nameFindings (config : Config) (text : String) : List Diagnostic :=
  match getKey config "name" with
  | some v =>
      if v.isString then []
      else [createDiagnostic .error (findLineForKey text "name") nameTypeMsg]
  | none => []

/-- The `version` type check of `validateConfig`. -/
def versionFindings (config : Config) (text : String) : List Diagnostic :=
  match getKey config "version" with
  | some v =>
      if v.isString then []
      else [createDiagnostic .error (findLineForKey text "version") versionTypeMsg]
  | none => []

/-- The `enabled` type check of `validateConfig`. -/
def enabledFindings (config : Config) (text : String) : List Diagnostic :=
  match getKey config "enabled" with
  | some v =>
      if v.isBool then []
      else [createDiagnostic .warning (findLineForKey text "enabled") enabledTypeMsg]
  | none => []

/-- The `settings.timeout` type check on the record view of the settings
value. -/
def timeoutFindings (s : List (String × YamlValue)) (text : String) :
    List Diagnostic :=
  match getKey s "timeout" with
  | some tv =>
      if tv.isNum then []
      else [createDiagnostic .warning (findLineForKey text "timeout") timeoutTypeMsg]
  | none => []

/-- The `settings.retries` type check on the record view of the settings
value. -/
def retriesTypeFindings (s : List (String × YamlValue)) (text : String) :
    List Diagnostic :=
  match getKey s "retries" with
  | some rv =>
      if rv.isNum then []
      else [createDiagnostic .warning (findLineForKey text "retries") retriesTypeMsg]
  | none => []

/-- The `settings.retries` non-negativity check: fires only when the value is
numeric and strictly negative. -/
def retriesNegFindings (s : List (String × YamlValue)) (text : String) :
    List Diagnostic :=
  match getKey s "retries" with
  | some (.num n) =>
      if n < 0 then
        [createDiagnostic .warning (findLineForKey text "retries") retriesNonNegMsg]
      else []
  | _ => []

/-- The nested `settings` validation of `validateConfig`: a shape error when
the value is not a non-null object, otherwise the `timeout`, `retries` type
checks and the `retries ≥ 0` check on the record view, in source order. -/
def settingsFindings (config : Config) (text : String) : List Diagnostic :=
  match getKey config "settings" with
  | none => []
  | some v =>
      if v.isObjectNonNull then
        timeoutFindings v.asRecord text ++ retriesTypeFindings v.asRecord text ++
          retriesNegFindings v.asRecord text
      else [createDiagnostic .error (findLineForKey text "settings") settingsObjMsg]

/-- `validateConfig` from the source: diagnostics accumulated in source order —
required-field checks, then the `name`, `version`, `enabled` type checks, then
the nested `settings` validation. -/
def validateConfig (config : Config) (text : String) : List Diagnostic :=
  requiredFindings config ++ nameFindings config text ++
    versionFindings config text ++ enabledFindings config text ++
    settingsFindings config text

/-- The result of the external YAML parser on failure:
`YAMLParseError` carries a message and an optional array of 1-based positions
(`linePos`), of which only the first entry's line is consulted. -/
structure YAMLParseError where
  message : String
  linePos : List (Nat × Nat)
deriving DecidableEq, Repr

/-- The 0-based diagnostic line of a syntax error: `(pos?.line ?? 1) - 1`. -/
def errorLine (e : YAMLParseError) : Int :=
  match e.linePos.head? with
  | some p => (p.1 : Int) - 1
  | none => 0

/-- `text.trim() === ''`: the text is empty or all whitespace. -/
def isBlank (text : String) : Bool :=
  text.data.all isWsChar

/-- Fixed prefix of a syntax-error diagnostic message. -/
def syntaxErrPrefix : String := "YAML構文エラー: "

/-- Message of the root-shape diagnostic. -/
def rootObjMsg : String := "ルート要素はオブジェクトである必要があります"

/-- `validateText` from the source, parameterized over the external YAML
parser (`parseYamlText`): blank texts are skipped; a parse error yields a
single syntax diagnostic; a non-mapping root yields a single shape diagnostic;
otherwise the config validation runs on the parsed mapping. -/
def validateText (parse : String → Except YAMLParseError YamlValue)
    (text : String) : List Diagnostic :=
  if isBlank text then []
  else
    match parse text with
    | .error e =>
        [createDiagnostic .error (errorLine e) (syntaxErrPrefix ++ e.message)]
    | .ok parsed =>
        match parsed with
        | .map entries => validateConfig entries text
        | _ => [createDiagnostic .error 0 rootObjMsg]

/-- A sequence of independent invocations of the validator, one per text, as
the LSP host performs on successive document-change events. -/
def runValidator (parse : String → Except YAMLParseError YamlValue)
    (texts : List String) : List (List Diagnostic) :=
  texts.map (validateText parse)

/-! ### Theorems -/

/-! Count and membership lemmas, one group per section of `validateConfig`. -/

theorem requiredFindings_countP_eq_zero (config : Config) (m : String)
    (h1 : (missingMsg "name" == m) = false)
    (h2 : (missingMsg "version" == m) = false) :
    (requiredFindings config).countP (fun d => d.message == m) = 0 := by
  cases hn : hasKey config "name" <;> cases hv : hasKey config "version" <;>
    simp [requiredFindings, REQUIRED_FIELDS, hn, hv, missingDiag,
      createDiagnostic, h1, h2]

theorem requiredFindings_countP_name (config : Config)
    (h : hasKey config "name" = false) :
    (requiredFindings config).countP
      (fun d => d.message == missingMsg "name") = 1 := by
  cases hv : hasKey config "version" <;>
    simp [requiredFindings, REQUIRED_FIELDS, h, hv, missingDiag, createDiagnostic,
      (by decide : (missingMsg "version" == missingMsg "name") = false)]

theorem requiredFindings_countP_version (config : Config)
    (h : hasKey config "version" = false) :
    (requiredFindings config).countP
      (fun d => d.message == missingMsg "version") = 1 := by
  cases hn : hasKey config "name" <;>
    simp [requiredFindings, REQUIRED_FIELDS, h, hn, missingDiag, createDiagnostic,
      (by decide : (missingMsg "name" == missingMsg "version") = false)]

theorem nameFindings_countP_eq_zero (config : Config) (text m : String)
    (h : (nameTypeMsg == m) = false) :
    (nameFindings config text).countP (fun d => d.message == m) = 0 := by
  rcases hg : getKey config "name" with _ | v
  · simp [nameFindings, hg]
  · cases hs : v.isString <;> simp [nameFindings, hg, hs, createDiagnostic, h]

theorem versionFindings_countP_eq_zero (config : Config) (text m : String)
    (h : (versionTypeMsg == m) = false) :
    (versionFindings config text).countP (fun d => d.message == m) = 0 := by
  rcases hg : getKey config "version" with _ | v
  · simp [versionFindings, hg]
  · cases hs : v.isString <;> simp [versionFindings, hg, hs, createDiagnostic, h]

theorem enabledFindings_countP_eq_zero (config : Config) (text m : String)
    (h : (enabledTypeMsg == m) = false) :
    (enabledFindings config text).countP (fun d => d.message == m) = 0 := by
  rcases hg : getKey config "enabled" with _ | v
  · simp [enabledFindings, hg]
  · cases hs : v.isBool <;> simp [enabledFindings, hg, hs, createDiagnostic, h]

theorem timeoutFindings_countP_eq_zero (s : List (String × YamlValue))
    (text m : String) (h : (timeoutTypeMsg == m) = false) :
    (timeoutFindings s text).countP (fun d => d.message == m) = 0 := by
  rcases hg : getKey s "timeout" with _ | v
  · simp [timeoutFindings, hg]
  · cases hs : v.isNum <;> simp [timeoutFindings, hg, hs, createDiagnostic, h]

theorem retriesTypeFindings_countP_eq_zero (s : List (String × YamlValue))
    (text m : String) (h : (retriesTypeMsg == m) = false) :
    (retriesTypeFindings s text).countP (fun d => d.message == m) = 0 := by
  rcases hg : getKey s "retries" with _ | v
  · simp [retriesTypeFindings, hg]
  · cases hs : v.isNum <;> simp [retriesTypeFindings, hg, hs, createDiagnostic, h]

theorem retriesNegFindings_countP_eq_zero (s : List (String × YamlValue))
    (text m : String) (h : (retriesNonNegMsg == m) = false) :
    (retriesNegFindings s text).countP (fun d => d.message == m) = 0 := by
  rcases hg : getKey s "retries" with _ | v
  · simp [retriesNegFindings, hg]
  · cases v <;> simp [retriesNegFindings, hg, createDiagnostic, h] <;>
      intro _ <;> simp_all

theorem settingsFindings_countP_eq_zero (config : Config) (text m : String)
    (h1 : (settingsObjMsg == m) = false) (h2 : (timeoutTypeMsg == m) = false)
    (h3 : (retriesTypeMsg == m) = false)
    (h4 : (retriesNonNegMsg == m) = false) :
    (settingsFindings config text).countP (fun d => d.message == m) = 0 := by
  rcases hg : getKey config "settings" with _ | v
  · simp [settingsFindings, hg]
  · cases hv : v.isObjectNonNull <;>
      simp [settingsFindings, hg, hv, createDiagnostic, h1, List.countP_append,
        timeoutFindings_countP_eq_zero v.asRecord text m h2,
        retriesTypeFindings_countP_eq_zero v.asRecord text m h3,
        retriesNegFindings_countP_eq_zero v.asRecord text m h4]

theorem mem_requiredFindings (config : Config) (d : Diagnostic)
    (hd : d ∈ requiredFindings config) :
    d = missingDiag "name" ∨ d = missingDiag "version" := by
  cases hn : hasKey config "name" <;> cases hv : hasKey config "version" <;>
    simp [requiredFindings, REQUIRED_FIELDS, hn, hv] at hd <;> tauto

theorem mem_nameFindings (config : Config) (text : String) (d : Diagnostic)
    (hd : d ∈ nameFindings config text) :
    d = createDiagnostic Severity.error (findLineForKey text "name") nameTypeMsg := by
  rcases hg : getKey config "name" with _ | v
  · simp [nameFindings, hg] at hd
  · cases hs : v.isString <;> simp [nameFindings, hg, hs] at hd
    exact hd

theorem mem_versionFindings (config : Config) (text : String) (d : Diagnostic)
    (hd : d ∈ versionFindings config text) :
    d = createDiagnostic Severity.error (findLineForKey text "version")
      versionTypeMsg := by
  rcases hg : getKey config "version" with _ | v
  · simp [versionFindings, hg] at hd
  · cases hs : v.isString <;> simp [versionFindings, hg, hs] at hd
    exact hd

theorem mem_enabledFindings (config : Config) (text : String) (d : Diagnostic)
    (hd : d ∈ enabledFindings config text) :
    d = createDiagnostic Severity.warning (findLineForKey text "enabled")
      enabledTypeMsg := by
  rcases hg : getKey config "enabled" with _ | v
  · simp [enabledFindings, hg] at hd
  · cases hs : v.isBool <;> simp [enabledFindings, hg, hs] at hd
    exact hd

theorem mem_timeoutFindings (s : List (String × YamlValue)) (text : String)
    (d : Diagnostic) (hd : d ∈ timeoutFindings s text) :
    d = createDiagnostic Severity.warning (findLineForKey text "timeout")
      timeoutTypeMsg := by
  rcases hg : getKey s "timeout" with _ | v
  · simp [timeoutFindings, hg] at hd
  · cases hs : v.isNum <;> simp [timeoutFindings, hg, hs] at hd
    exact hd

theorem mem_retriesTypeFindings (s : List (String × YamlValue)) (text : String)
    (d : Diagnostic) (hd : d ∈ retriesTypeFindings s text) :
    d = createDiagnostic Severity.warning (findLineForKey text "retries")
      retriesTypeMsg := by
  rcases hg : getKey s "retries" with _ | v
  · simp [retriesTypeFindings, hg] at hd
  · cases hs : v.isNum <;> simp [retriesTypeFindings, hg, hs] at hd
    exact hd

theorem mem_retriesNegFindings (s : List (String × YamlValue)) (text : String)
    (d : Diagnostic) (hd : d ∈ retriesNegFindings s text) :
    d = createDiagnostic Severity.warning (findLineForKey text "retries")
      retriesNonNegMsg := by
  rcases hg : getKey s "retries" with _ | v
  · simp [retriesNegFindings, hg] at hd
  · cases v <;> simp [retriesNegFindings, hg] at hd <;> exact hd.2

theorem mem_settingsFindings (config : Config) (text : String) (d : Diagnostic)
    (hd : d ∈ settingsFindings config text) :
    d = createDiagnostic Severity.error (findLineForKey text "settings")
        settingsObjMsg
    ∨ d = createDiagnostic Severity.warning (findLineForKey text "timeout")
        timeoutTypeMsg
    ∨ d = createDiagnostic Severity.warning (findLineForKey text "retries")
        retriesTypeMsg
    ∨ d = createDiagnostic Severity.warning (findLineForKey text "retries")
        retriesNonNegMsg := by
  rcases hg : getKey config "settings" with _ | v
  · simp [settingsFindings, hg] at hd
  · cases hv : v.isObjectNonNull <;> simp [settingsFindings, hg, hv] at hd
    · exact Or.inl hd
    · rcases hd with hd | hd | hd
      · exact Or.inr (Or.inl (mem_timeoutFindings _ _ _ hd))
      · exact Or.inr (Or.inr (Or.inl (mem_retriesTypeFindings _ _ _ hd)))
      · exact Or.inr (Or.inr (Or.inr (mem_retriesNegFindings _ _ _ hd)))

theorem mem_validateConfig (config : Config) (text : String) (d : Diagnostic)
    (hd : d ∈ validateConfig config text) :
    d = missingDiag "name" ∨ d = missingDiag "version"
    ∨ d = createDiagnostic Severity.error (findLineForKey text "name") nameTypeMsg
    ∨ d = createDiagnostic Severity.error (findLineForKey text "version")
        versionTypeMsg
    ∨ d = createDiagnostic Severity.warning (findLineForKey text "enabled")
        enabledTypeMsg
    ∨ d = createDiagnostic Severity.error (findLineForKey text "settings")
        settingsObjMsg
    ∨ d = createDiagnostic Severity.warning (findLineForKey text "timeout")
        timeoutTypeMsg
    ∨ d = createDiagnostic Severity.warning (findLineForKey text "retries")
        retriesTypeMsg
    ∨ d = createDiagnostic Severity.warning (findLineForKey text "retries")
        retriesNonNegMsg := by
  simp only [validateConfig, List.mem_append] at hd
  rcases hd with (((hd | hd) | hd) | hd) | hd
  · rcases mem_requiredFindings config d hd with h | h
    · exact Or.inl h
    · exact Or.inr (Or.inl h)
  · exact Or.inr (Or.inr (Or.inl (mem_nameFindings config text d hd)))
  · exact Or.inr (Or.inr (Or.inr (Or.inl (mem_versionFindings config text d hd))))
  · exact Or.inr (Or.inr (Or.inr (Or.inr (Or.inl
      (mem_enabledFindings config text d hd)))))
  · rcases mem_settingsFindings config text d hd with h | h | h | h <;> tauto

/-- C3: blank documents (empty or all whitespace) produce no findings at all,
not even for the missing required fields. -/
theorem claim_C3 (parse : String → Except YAMLParseError YamlValue)
    (text : String) (hb : isBlank text = true) :
    validateText parse text = [] := by
  simp [validateText, hb]

/-- Witness for C3 at the concrete whitespace-only text. -/
theorem claim_C3_witness :
    validateText (fun _ => Except.ok YamlValue.null) "   \n\n   " = [] :=
  claim_C3 (fun _ => Except.ok YamlValue.null) "   \n\n   " (by decide)

/-- C4: on a non-blank text whose structural parse fails, `validateText`
returns exactly one error finding, at the reported 1-based line minus one (or
line 0 when no position is available), whose message is the fixed
syntax-error prefix followed by the parser's message; no other check runs. -/
theorem claim_C4 (parse : String → Except YAMLParseError YamlValue)
    (text : String) (e : YAMLParseError) (hb : isBlank text = false)
    (he : parse text = Except.error e) :
    validateText parse text =
      [createDiagnostic Severity.error (errorLine e) (syntaxErrPrefix ++ e.message)]
    ∧ (e.linePos.head? = none → errorLine e = 0)
    ∧ (∀ p, e.linePos.head? = some p → errorLine e = (p.1 : Int) - 1)
    ∧ (createDiagnostic Severity.error (errorLine e)
        (syntaxErrPrefix ++ e.message)).severity = Severity.error := by
  refine ⟨by simp [validateText, hb, he], fun h => ?_, fun p h => ?_, rfl⟩
  · simp [errorLine, h]
  · simp [errorLine, h]

/-- Witness for C4 at a concrete failing parse with a reported position. -/
theorem claim_C4_witness :
    validateText (fun _ => Except.error ⟨"bad", [(3, 5)]⟩) "x: [" =
      [createDiagnostic Severity.error 2 (syntaxErrPrefix ++ "bad")] := by
  have h := claim_C4 (fun _ => Except.error ⟨"bad", [(3, 5)]⟩) "x: ["
    ⟨"bad", [(3, 5)]⟩ (by decide) rfl
  exact h.1

/-- C5: on a non-blank text that parses to anything other than a mapping (a
scalar, a sequence — empty or not — or null), `validateText` returns exactly
one error finding at line 0 with the fixed root-shape message, and no field
check runs. -/
theorem claim_C5 (parse : String → Except YAMLParseError YamlValue)
    (text : String) (v : YamlValue) (hb : isBlank text = false)
    (ho : parse text = Except.ok v) (hv : v.isMap = false) :
    validateText parse text = [createDiagnostic Severity.error 0 rootObjMsg] := by
  cases v <;> simp_all [validateText, hb, ho, YamlValue.isMap]

/-- Witness for C5 at a concrete sequence-rooted document. -/
theorem claim_C5_witness :
    validateText (fun _ => Except.ok (YamlValue.seq [])) "- a" =
      [createDiagnostic Severity.error 0 rootObjMsg] :=
  claim_C5 (fun _ => Except.ok (YamlValue.seq [])) "- a" (YamlValue.seq [])
    (by decide) rfl (by decide)

/-- C9: `validateText` is a deterministic, stateless function of the text:
in any sequence of invocations, any two calls on the same text yield the same
findings (position and call history are irrelevant), and each output is fully
determined by its own text. -/
theorem claim_C9 (parse : String → Except YAMLParseError YamlValue)
    (texts : List String) (i j : Nat) (t : String)
    (hi : texts.get? i = some t) (hj : texts.get? j = some t) :
    (runValidator parse texts).get? i = (runValidator parse texts).get? j
    ∧ (runValidator parse texts).get? i = some (validateText parse t) := by
  rw [List.get?_eq_getElem?] at hi hj
  simp [runValidator, List.get?_eq_getElem?, List.getElem?_map, hi, hj]

/-- Witness for C9: two invocations on the same text in a concrete run. -/
theorem claim_C9_witness :
    (runValidator (fun _ => Except.ok YamlValue.null) ["a: 1", "b", "a: 1"]).get? 0 =
      (runValidator (fun _ => Except.ok YamlValue.null) ["a: 1", "b", "a: 1"]).get? 2 :=
  (claim_C9 (fun _ => Except.ok YamlValue.null) ["a: 1", "b", "a: 1"] 0 2 "a: 1"
    rfl rfl).1

/-- The scan of `findLineForKey` returns `none` exactly when no line matches
the key pattern. -/
theorem findLineAux_eq_none_iff (key : String) (ls : List String) (i : Nat) :
    findLineAux key ls i = none ↔ ∀ l ∈ ls, lineMatchesKey l key = false := by
  induction ls generalizing i with
  | nil => simp [findLineAux]
  | cons l ls ih => cases hm : lineMatchesKey l key <;> simp [findLineAux, hm, ih]

/-- When the scan of `findLineForKey` returns an index, that index points at a
matching line and every earlier scanned line does not match. -/
theorem findLineAux_eq_some (key : String) (ls : List String) (i r : Nat)
    (h : findLineAux key ls i = some r) :
    i ≤ r ∧ (∃ l, ls[r - i]? = some l ∧ lineMatchesKey l key = true)
      ∧ ∀ j, j < r - i → ∀ l, ls[j]? = some l → lineMatchesKey l key = false := by
  induction ls generalizing i with
  | nil => simp [findLineAux] at h
  | cons l ls ih =>
    cases hm : lineMatchesKey l key with
    | true =>
      simp [findLineAux, hm] at h
      subst h
      exact ⟨Nat.le_refl i, ⟨l, by simp, hm⟩, fun j hj => by omega⟩
    | false =>
      simp [findLineAux, hm] at h
      obtain ⟨h1, ⟨l', hget, hl'⟩, hmin⟩ := ih (i + 1) h
      refine ⟨by omega, ⟨l', ?_, hl'⟩, ?_⟩
      · have hri : r - i = (r - (i + 1)) + 1 := by omega
        rw [hri]
        simpa using hget
      · intro j hj l'' hget''
        cases j with
        | zero =>
          simp at hget''
          subst hget''
          exact hm
        | succ j' =>
          refine hmin j' (by omega) l'' ?_
          simpa using hget''

/-- C6: `findLineForKey` returns the 0-based index of the first line of the
text that matches "optional leading whitespace, the key, optional whitespace,
a colon" (at any indentation depth), and 0 when no line matches; on the
four-line sample document it returns 2 for "timeout", 3 for "retries" and 0
for an absent key. -/
theorem claim_C6 (text key : String) :
    ((∀ l ∈ splitLines text, lineMatchesKey l key = false) →
        findLineForKey text key = 0)
    ∧ ((∃ l ∈ splitLines text, lineMatchesKey l key = true) →
        (∃ l, (splitLines text)[findLineForKey text key]? = some l ∧
            lineMatchesKey l key = true)
        ∧ ∀ j, j < findLineForKey text key → ∀ l,
            (splitLines text)[j]? = some l → lineMatchesKey l key = false)
    ∧ findLineForKey "name: test\nsettings:\n  timeout: 30\n  retries: 3"
        "timeout" = 2
    ∧ findLineForKey "name: test\nsettings:\n  timeout: 30\n  retries: 3"
        "retries" = 3
    ∧ findLineForKey "name: test\nsettings:\n  timeout: 30\n  retries: 3"
        "nonexistent" = 0 := by
  refine ⟨fun h => ?_, fun h => ?_, by decide, by decide, by decide⟩
  · have hn : findLineAux key (splitLines text) 0 = none :=
      (findLineAux_eq_none_iff key (splitLines text) 0).mpr h
    simp [findLineForKey, hn]
  · obtain ⟨l, hl, hm⟩ := h
    rcases hr : findLineAux key (splitLines text) 0 with _ | r
    · exact absurd (((findLineAux_eq_none_iff key (splitLines text) 0).mp hr) l hl)
        (by simp [hm])
    · obtain ⟨-, ⟨l', hget, hl'⟩, hmin⟩ :=
        findLineAux_eq_some key (splitLines text) 0 r hr
      have hfk : findLineForKey text key = r := by simp [findLineForKey, hr]
      rw [hfk]
      simp only [Nat.sub_zero] at hget hmin
      exact ⟨⟨l', hget, hl'⟩, hmin⟩

/-- Witness for C6: on the sample document the first conjunct applies to a key
absent from every line. -/
theorem claim_C6_witness :
    findLineForKey "name: test\nversion: 1" "missing" = 0 :=
  (claim_C6 "name: test\nversion: 1" "missing").1 (by decide)

/-- C1: for every config and text, each required field absent from the config
yields exactly one error finding at line 0; these findings come first, in the
declaration order of `REQUIRED_FIELDS` ("name" then "version"), before any
other finding; for the empty config with empty text the result is exactly the
two missing-field findings, whose messages mention "name" and "version"
respectively. -/
theorem claim_C1 (config : Config) (text : String) :
    validateConfig config text =
      (REQUIRED_FIELDS.filter fun f => !hasKey config f).map missingDiag ++
        (nameFindings config text ++ versionFindings config text ++
          enabledFindings config text ++ settingsFindings config text)
    ∧ (∀ f, (missingDiag f).severity = Severity.error ∧
        (missingDiag f).range.start.line = 0)
    ∧ (∀ f ∈ REQUIRED_FIELDS, hasKey config f = false →
        (validateConfig config text).countP
          (fun d => d.message == missingMsg f) = 1)
    ∧ (∀ f ∈ REQUIRED_FIELDS, ∀ d ∈ nameFindings config text ++
          versionFindings config text ++ enabledFindings config text ++
          settingsFindings config text, d.message ≠ missingMsg f)
    ∧ validateConfig [] "" = [missingDiag "name", missingDiag "version"]
    ∧ missingMsg "name" = "必須フィールド \"" ++ "name" ++ "\" がありません"
    ∧ missingMsg "version" = "必須フィールド \"" ++ "version" ++ "\" がありません" := by
  refine ⟨?_, fun f => ⟨rfl, rfl⟩, ?_, ?_, by decide, rfl, rfl⟩
  · have hreq : requiredFindings config =
        (REQUIRED_FIELDS.filter fun f => !hasKey config f).map missingDiag := by
      cases hn : hasKey config "name" <;> cases hv : hasKey config "version" <;>
        simp [requiredFindings, REQUIRED_FIELDS, hn, hv]
    simp [validateConfig, hreq]
  · intro f hf hmiss
    have hf' : f = "name" ∨ f = "version" := by
      simpa [REQUIRED_FIELDS] using hf
    rcases hf' with rfl | rfl
    · simp only [validateConfig, List.countP_append,
        requiredFindings_countP_name config hmiss,
        nameFindings_countP_eq_zero config text (missingMsg "name") (by decide),
        versionFindings_countP_eq_zero config text (missingMsg "name") (by decide),
        enabledFindings_countP_eq_zero config text (missingMsg "name") (by decide),
        settingsFindings_countP_eq_zero config text (missingMsg "name")
          (by decide) (by decide) (by decide) (by decide)]
    · simp only [validateConfig, List.countP_append,
        requiredFindings_countP_version config hmiss,
        nameFindings_countP_eq_zero config text (missingMsg "version") (by decide),
        versionFindings_countP_eq_zero config text (missingMsg "version") (by decide),
        enabledFindings_countP_eq_zero config text (missingMsg "version") (by decide),
        settingsFindings_countP_eq_zero config text (missingMsg "version")
          (by decide) (by decide) (by decide) (by decide)]
  · intro f hf d hd
    have hf' : f = "name" ∨ f = "version" := by
      simpa [REQUIRED_FIELDS] using hf
    simp only [List.mem_append] at hd
    have hshape :
        d = createDiagnostic Severity.error (findLineForKey text "name") nameTypeMsg
        ∨ d = createDiagnostic Severity.error (findLineForKey text "version")
            versionTypeMsg
        ∨ d = createDiagnostic Severity.warning (findLineForKey text "enabled")
            enabledTypeMsg
        ∨ d = createDiagnostic Severity.error (findLineForKey text "settings")
            settingsObjMsg
        ∨ d = createDiagnostic Severity.warning (findLineForKey text "timeout")
            timeoutTypeMsg
        ∨ d = createDiagnostic Severity.warning (findLineForKey text "retries")
            retriesTypeMsg
        ∨ d = createDiagnostic Severity.warning (findLineForKey text "retries")
            retriesNonNegMsg := by
      rcases hd with ((hd | hd) | hd) | hd
      · exact Or.inl (mem_nameFindings config text d hd)
      · exact Or.inr (Or.inl (mem_versionFindings config text d hd))
      · exact Or.inr (Or.inr (Or.inl (mem_enabledFindings config text d hd)))
      · rcases mem_settingsFindings config text d hd with h | h | h | h <;> tauto
    rcases hf' with rfl | rfl <;>
      rcases hshape with rfl | rfl | rfl | rfl | rfl | rfl | rfl <;>
        simp [createDiagnostic] <;> decide

/-- Witness for C1: the count conjunct at the empty config with non-empty
text. -/
theorem claim_C1_witness :
    (validateConfig [] "x: 1").countP
      (fun d => d.message == missingMsg "name") = 1 :=
  (claim_C1 [] "x: 1").2.2.1 "name" (by decide) (by decide)

/-- C2: each of the fields "name", "version", "enabled" that is present with
a value of the wrong runtime type (string, string, boolean respectively)
yields exactly one finding of `validateConfig`, located at
`findLineForKey text field` and with that field's fixed message; a field that
is present with the correct type, or absent, yields no such finding. -/
theorem claim_C2 (config : Config) (text : String) :
    ((∀ v, getKey config "name" = some v → v.isString = false →
        (validateConfig config text).countP
          (fun d => d.message == nameTypeMsg) = 1
        ∧ createDiagnostic Severity.error (findLineForKey text "name")
            nameTypeMsg ∈ validateConfig config text)
      ∧ ((getKey config "name" = none ∨
            ∃ v, getKey config "name" = some v ∧ v.isString = true) →
          (validateConfig config text).countP
            (fun d => d.message == nameTypeMsg) = 0))
    ∧ ((∀ v, getKey config "version" = some v → v.isString = false →
        (validateConfig config text).countP
          (fun d => d.message == versionTypeMsg) = 1
        ∧ createDiagnostic Severity.error (findLineForKey text "version")
            versionTypeMsg ∈ validateConfig config text)
      ∧ ((getKey config "version" = none ∨
            ∃ v, getKey config "version" = some v ∧ v.isString = true) →
          (validateConfig config text).countP
            (fun d => d.message == versionTypeMsg) = 0))
    ∧ ((∀ v, getKey config "enabled" = some v → v.isBool = false →
        (validateConfig config text).countP
          (fun d => d.message == enabledTypeMsg) = 1
        ∧ createDiagnostic Severity.warning (findLineForKey text "enabled")
            enabledTypeMsg ∈ validateConfig config text)
      ∧ ((getKey config "enabled" = none ∨
            ∃ v, getKey config "enabled" = some v ∧ v.isBool = true) →
          (validateConfig config text).countP
            (fun d => d.message == enabledTypeMsg) = 0)) := by
  refine ⟨⟨fun v hv hvt => ?_, fun hok => ?_⟩,
    ⟨fun v hv hvt => ?_, fun hok => ?_⟩, ⟨fun v hv hvt => ?_, fun hok => ?_⟩⟩
  · have hseg : nameFindings config text =
        [createDiagnostic Severity.error (findLineForKey text "name")
          nameTypeMsg] := by
      simp [nameFindings, hv, hvt]
    constructor
    · simp only [validateConfig, List.countP_append, hseg,
        requiredFindings_countP_eq_zero config nameTypeMsg (by decide) (by decide),
        versionFindings_countP_eq_zero config text nameTypeMsg (by decide),
        enabledFindings_countP_eq_zero config text nameTypeMsg (by decide),
        settingsFindings_countP_eq_zero config text nameTypeMsg
          (by decide) (by decide) (by decide) (by decide)]
      simp [createDiagnostic]
    · simp [validateConfig, hseg]
  · have hseg : nameFindings config text = [] := by
      rcases hok with hok | ⟨v, hv, hvt⟩
      · simp [nameFindings, hok]
      · simp [nameFindings, hv, hvt]
    simp only [validateConfig, List.countP_append, hseg,
      requiredFindings_countP_eq_zero config nameTypeMsg (by decide) (by decide),
      versionFindings_countP_eq_zero config text nameTypeMsg (by decide),
      enabledFindings_countP_eq_zero config text nameTypeMsg (by decide),
      settingsFindings_countP_eq_zero config text nameTypeMsg
        (by decide) (by decide) (by decide) (by decide)]
    simp
  · have hseg : versionFindings config text =
        [createDiagnostic Severity.error (findLineForKey text "version")
          versionTypeMsg] := by
      simp [versionFindings, hv, hvt]
    constructor
    · simp only [validateConfig, List.countP_append, hseg,
        requiredFindings_countP_eq_zero config versionTypeMsg
          (by decide) (by decide),
        nameFindings_countP_eq_zero config text versionTypeMsg (by decide),
        enabledFindings_countP_eq_zero config text versionTypeMsg (by decide),
        settingsFindings_countP_eq_zero config text versionTypeMsg
          (by decide) (by decide) (by decide) (by decide)]
      simp [createDiagnostic]
    · simp [validateConfig, hseg]
  · have hseg : versionFindings config text = [] := by
      rcases hok with hok | ⟨v, hv, hvt⟩
      · simp [versionFindings, hok]
      · simp [versionFindings, hv, hvt]
    simp only [validateConfig, List.countP_append, hseg,
      requiredFindings_countP_eq_zero config versionTypeMsg
        (by decide) (by decide),
      nameFindings_countP_eq_zero config text versionTypeMsg (by decide),
      enabledFindings_countP_eq_zero config text versionTypeMsg (by decide),
      settingsFindings_countP_eq_zero config text versionTypeMsg
        (by decide) (by decide) (by decide) (by decide)]
    simp
  · have hseg : enabledFindings config text =
        [createDiagnostic Severity.warning (findLineForKey text "enabled")
          enabledTypeMsg] := by
      simp [enabledFindings, hv, hvt]
    constructor
    · simp only [validateConfig, List.countP_append, hseg,
        requiredFindings_countP_eq_zero config enabledTypeMsg
          (by decide) (by decide),
        nameFindings_countP_eq_zero config text enabledTypeMsg (by decide),
        versionFindings_countP_eq_zero config text enabledTypeMsg (by decide),
        settingsFindings_countP_eq_zero config text enabledTypeMsg
          (by decide) (by decide) (by decide) (by decide)]
      simp [createDiagnostic]
    · simp [validateConfig, hseg]
  · have hseg : enabledFindings config text = [] := by
      rcases hok with hok | ⟨v, hv, hvt⟩
      · simp [enabledFindings, hok]
      · simp [enabledFindings, hv, hvt]
    simp only [validateConfig, List.countP_append, hseg,
      requiredFindings_countP_eq_zero config enabledTypeMsg
        (by decide) (by decide),
      nameFindings_countP_eq_zero config text enabledTypeMsg (by decide),
      versionFindings_countP_eq_zero config text enabledTypeMsg (by decide),
      settingsFindings_countP_eq_zero config text enabledTypeMsg
        (by decide) (by decide) (by decide) (by decide)]
    simp

/-- Witness for C2: a numeric "name" yields exactly one name-type finding. -/
theorem claim_C2_witness :
    (validateConfig [("name", YamlValue.num 1), ("version", YamlValue.str "1")]
        "name: 1\nversion: \"1\"").countP
      (fun d => d.message == nameTypeMsg) = 1 :=
  ((claim_C2 [("name", YamlValue.num 1), ("version", YamlValue.str "1")]
      "name: 1\nversion: \"1\"").1.1 (YamlValue.num 1) rfl (by decide)).1

/-- C7: when the "settings" value is a mapping, a numeric strictly negative
"retries" yields the "≥ 0" warning and not the "must be a number" warning; a
non-numeric "retries" yields only the "must be a number" warning; and in every
case at most one retries finding is produced per call. -/
theorem claim_C7 (config : Config) (text : String)
    (s : List (String × YamlValue))
    (hs : getKey config "settings" = some (YamlValue.map s)) :
    (∀ n : Int, getKey s "retries" = some (YamlValue.num n) → n < 0 →
        (validateConfig config text).countP
          (fun d => d.message == retriesNonNegMsg) = 1
        ∧ (validateConfig config text).countP
            (fun d => d.message == retriesTypeMsg) = 0)
    ∧ (∀ v, getKey s "retries" = some v → v.isNum = false →
        (validateConfig config text).countP
          (fun d => d.message == retriesTypeMsg) = 1
        ∧ (validateConfig config text).countP
            (fun d => d.message == retriesNonNegMsg) = 0)
    ∧ (validateConfig config text).countP (fun d => d.message == retriesTypeMsg)
        + (validateConfig config text).countP
            (fun d => d.message == retriesNonNegMsg) ≤ 1 := by
  have hset : settingsFindings config text =
      timeoutFindings s text ++ retriesTypeFindings s text ++
        retriesNegFindings s text := by
    simp [settingsFindings, hs, YamlValue.isObjectNonNull, YamlValue.asRecord]
  have hbase : ∀ m : String,
      (missingMsg "name" == m) = false → (missingMsg "version" == m) = false →
      (nameTypeMsg == m) = false → (versionTypeMsg == m) = false →
      (enabledTypeMsg == m) = false → (timeoutTypeMsg == m) = false →
      (validateConfig config text).countP (fun d => d.message == m) =
        (retriesTypeFindings s text).countP (fun d => d.message == m) +
          (retriesNegFindings s text).countP (fun d => d.message == m) := by
    intro m h1 h2 h3 h4 h5 h6
    simp only [validateConfig, hset, List.countP_append,
      requiredFindings_countP_eq_zero config m h1 h2,
      nameFindings_countP_eq_zero config text m h3,
      versionFindings_countP_eq_zero config text m h4,
      enabledFindings_countP_eq_zero config text m h5,
      timeoutFindings_countP_eq_zero s text m h6]
    omega
  have hty : (validateConfig config text).countP
      (fun d => d.message == retriesTypeMsg) =
        (retriesTypeFindings s text).countP
          (fun d => d.message == retriesTypeMsg) := by
    rw [hbase retriesTypeMsg (by decide) (by decide) (by decide) (by decide)
      (by decide) (by decide),
      retriesNegFindings_countP_eq_zero s text retriesTypeMsg (by decide)]
    omega
  have hneg : (validateConfig config text).countP
      (fun d => d.message == retriesNonNegMsg) =
        (retriesNegFindings s text).countP
          (fun d => d.message == retriesNonNegMsg) := by
    rw [hbase retriesNonNegMsg (by decide) (by decide) (by decide) (by decide)
      (by decide) (by decide),
      retriesTypeFindings_countP_eq_zero s text retriesNonNegMsg (by decide)]
    omega
  refine ⟨fun n hr hn => ?_, fun v hr hv => ?_, ?_⟩
  · constructor
    · rw [hneg]
      simp [retriesNegFindings, hr, hn, createDiagnostic]
    · rw [hty]
      simp [retriesTypeFindings, hr, YamlValue.isNum]
  · constructor
    · rw [hty]
      simp [retriesTypeFindings, hr, hv, createDiagnostic]
    · rw [hneg]
      cases v <;> simp_all [retriesNegFindings, YamlValue.isNum]
  · rw [hty, hneg]
    rcases hr : getKey s "retries" with _ | v
    · simp [retriesTypeFindings, retriesNegFindings, hr]
    · cases v <;>
        simp [retriesTypeFindings, retriesNegFindings, hr, YamlValue.isNum,
          createDiagnostic] <;>
        split <;> simp [createDiagnostic]

/-- Witness for C7: a negative retries value yields exactly the "≥ 0"
warning. -/
theorem claim_C7_witness :
    (validateConfig
        [("settings", YamlValue.map [("retries", YamlValue.num (-1))])]
        "").countP (fun d => d.message == retriesNonNegMsg) = 1 :=
  ((claim_C7 [("settings", YamlValue.map [("retries", YamlValue.num (-1))])]
      "" [("retries", YamlValue.num (-1))] rfl).1 (-1) rfl (by decide)).1

/-- Counterexample to C8 as stated: a config whose optional "settings" field
holds a string produces a finding about the optional field "settings" at
severity error, not warning. -/
theorem claim_C8_counterexample :
    validateConfig
        [("name", YamlValue.str "a"), ("version", YamlValue.str "b"),
          ("settings", YamlValue.str "x")] "" =
      [createDiagnostic Severity.error 0 settingsObjMsg]
    ∧ (createDiagnostic Severity.error 0 settingsObjMsg).severity ≠
        Severity.warning := by
  exact ⟨by decide, by decide⟩

/-- C8 (amended): findings about missing or wrong-typed required fields, and
the "settings must be an object" shape finding, have severity error; findings
about the optional fields "enabled", "settings.timeout", "settings.retries"
have severity warning. -/
theorem claim_C8 (config : Config) (text : String) :
    ∀ d ∈ validateConfig config text,
      ((d.message = missingMsg "name" ∨ d.message = missingMsg "version"
          ∨ d.message = nameTypeMsg ∨ d.message = versionTypeMsg
          ∨ d.message = settingsObjMsg) → d.severity = Severity.error)
      ∧ ((d.message = enabledTypeMsg ∨ d.message = timeoutTypeMsg
          ∨ d.message = retriesTypeMsg ∨ d.message = retriesNonNegMsg) →
          d.severity = Severity.warning) := by
  intro d hd
  rcases mem_validateConfig config text d hd with
      rfl | rfl | rfl | rfl | rfl | rfl | rfl | rfl | rfl <;>
    constructor <;> intro h <;>
      first
        | rfl
        | (exfalso
           revert h
           simp only [missingDiag, createDiagnostic]
           decide)

/-- Witness for C8 at a concrete run: the enabled-type finding produced for a
string-valued "enabled" is a warning. -/
theorem claim_C8_witness :
    (createDiagnostic Severity.warning 0 enabledTypeMsg).severity =
      Severity.warning :=
  (claim_C8 [("name", YamlValue.str "a"), ("version", YamlValue.str "b"),
      ("enabled", YamlValue.str "x")] ""
    (createDiagnostic Severity.warning 0 enabledTypeMsg)
    (by decide)).2 (Or.inl rfl)

/-- Every finding of `validateConfig` is built by `createDiagnostic` and so
carries the fixed source and a single-line, character-0-to-1000 range. -/
theorem validateConfig_range_props (config : Config) (text : String) :
    ∀ d ∈ validateConfig config text,
      d.source = "myconfig-lsp" ∧ d.range.start.line = d.range.«end».line
      ∧ d.range.start.character = 0 ∧ d.range.«end».character = 1000 := by
  intro d hd
  rcases mem_validateConfig config text d hd with
      rfl | rfl | rfl | rfl | rfl | rfl | rfl | rfl | rfl <;>
    exact ⟨rfl, rfl, rfl, rfl⟩

/-- C10: every finding of `validateConfig` and of `validateText` has source
"myconfig-lsp" and a range confined to one line: start line equals end line,
start character 0, end character 1000. -/
theorem claim_C10 (parse : String → Except YAMLParseError YamlValue)
    (config : Config) (text : String) :
    (∀ d ∈ validateConfig config text,
        d.source = "myconfig-lsp" ∧ d.range.start.line = d.range.«end».line
        ∧ d.range.start.character = 0 ∧ d.range.«end».character = 1000)
    ∧ (∀ d ∈ validateText parse text,
        d.source = "myconfig-lsp" ∧ d.range.start.line = d.range.«end».line
        ∧ d.range.start.character = 0 ∧ d.range.«end».character = 1000) := by
  refine ⟨validateConfig_range_props config text, ?_⟩
  intro d hd
  by_cases hb : isBlank text
  · simp [validateText, hb] at hd
  · rcases hp : parse text with e | v
    · simp [validateText, hb, hp] at hd
      subst hd
      exact ⟨rfl, rfl, rfl, rfl⟩
    · cases v <;> simp [validateText, hb, hp] at hd <;>
        first
          | (subst hd; exact ⟨rfl, rfl, rfl, rfl⟩)
          | exact validateConfig_range_props _ text d hd

/-- Witness for C10: the missing-name finding of a concrete run carries the
fixed source. -/
theorem claim_C10_witness :
    (missingDiag "name").source = "myconfig-lsp" :=
  ((claim_C10 (fun _ => Except.ok YamlValue.null) [] "").1
    (missingDiag "name") (by decide)).1

end MyConfig
